import Mathlib

/-!
Shallow embedding of `src/main/event.py` from the cvent-webhook-handler
repository: record schemas (`SessionData`, `SpeakerData`), the speaker
category classifier, the record store (`Database` with `load`, `save`,
`update_session`, `update_speaker`, `delete_session`, `delete_speaker`),
and the event reconciler (`handle_event`).

Modelling conventions:
* Python `dict`s (both the store's mappings and JSON objects) are modelled
  as association lists with insertion-order semantics: lookup returns the
  first binding, assignment replaces the first binding in place or appends
  a fresh binding at the end — exactly the observable behaviour of a
  Python `dict` with unique keys.
* JSON values are modelled by the inductive `Value`.  `datetime` and
  `date` fields are represented by their serialized ISO text (the repo
  never inspects their structure, only parses and re-serializes them);
  the external library's type coercion is modelled as exact-shape
  matching, and any coercion failure is a `ValidationError`.
* File I/O is modelled functionally: `save` returns the list of file
  writes it performs, `load` consumes the list of file contents found in
  the `sessions/` and `speakers/` directories.
* Raising an exception is modelled with `Except`: an error result means
  the store the caller holds is untouched.
-/

/-- JSON-ish values as they appear in event payloads and persisted files. -/
inductive Value where
  | str : String → Value
  | num : Int → Value
  | bool : Bool → Value
  | null : Value
  | arr : List Value → Value
  | obj : List (String × Value) → Value

/-- A decoded JSON object: a Python dict of string keys. -/
abbrev Payload := List (String × Value)

/-- First-match association-list lookup: `d.get(k)` / `d[k]` on a Python dict. -/
def alGet (m : List (String × α)) (k : String) : Option α :=
  match m with
  | [] => none
  | (k', v) :: rest => if k' = k then some v else alGet rest k

/-- Association-list assignment: `d[k] = v` on a Python dict (replace the
first binding in place, else append at the end). -/
def alSet (m : List (String × α)) (k : String) (v : α) : List (String × α) :=
  match m with
  | [] => [(k, v)]
  | (k', v') :: rest => if k' = k then (k, v) :: rest else (k', v') :: alSet rest k v

/-- Python `str.capitalize`: first character upper-cased, the rest lower-cased. -/
def pyCapitalize (s : String) : String :=
  match s.data with
  | [] => ""
  | c :: cs => String.mk (c.toUpper :: cs.map Char.toLower)

/-- `name.split("_")` for the single-character separator `_`. -/
def splitUnderscore : List Char → List (List Char)
  | [] => [[]]
  | c :: cs =>
    match splitUnderscore cs with
    | [] => if c = '_' then [[], []] else [[c]]
    | s :: ss => if c = '_' then [] :: s :: ss else (c :: s) :: ss

/-- `camel_case` from event.py: split on `_`, keep the first segment as is,
`str.capitalize` each following segment, concatenate. -/
def camel_case (name : String) : String :=
  match (splitUnderscore name.data).map String.mk with
  | [] => ""
  | first :: rest => first ++ String.join (rest.map pyCapitalize)

/-- `SessionData` from event.py.  Timestamps and dates are carried as their
serialized ISO text (the program only parses and re-serializes them). -/
structure SessionData where
  session_description : String
  session_end_date_time : String
  session_name : String
  session_start_date_time : String
  session_stub : String
  speaker_category : List String
  speakers : List String
  timezone_name : String
  updated_date : String
  deriving DecidableEq, Repr

/-- `SpeakerData` from event.py. -/
structure SpeakerData where
  presenter_at : List String
  speaker_biography : String
  speaker_display_name : String
  speaker_first_name : String
  speaker_last_name : String
  speaker_stub : String
  speaker_title : String
  updated_date : String
  deriving DecidableEq, Repr

/-- `SpeakerCategory` enumeration from event.py. -/
inductive SpeakerCategory where
  | COMPOSER
  | PERFORMER
  | PRESENTER
  deriving DecidableEq, Repr

/-- `Session` wrapper dataclass: record plus mutable `updated`/`deleted` flags
(defaults `updated=True`, `deleted=False`). -/
structure Session where
  data : SessionData
  updated : Bool := true
  deleted : Bool := false
  deriving DecidableEq, Repr

/-- `session.stub` property. -/
def Session.stub (s : Session) : String := s.data.session_stub

/-- `session.filename` property. -/
def Session.filename (s : Session) : String := s.stub ++ ".json"

/-- `Speaker` wrapper dataclass: record, derived category list, and mutable
`updated`/`deleted` flags (defaults `updated=True`, `deleted=False`). -/
structure Speaker where
  data : SpeakerData
  categories : List SpeakerCategory
  updated : Bool := true
  deleted : Bool := false
  deriving DecidableEq, Repr

/-- `speaker.stub` property. -/
def Speaker.stub (s : Speaker) : String := s.data.speaker_stub

/-- `speaker.filename` property. -/
def Speaker.filename (s : Speaker) : String := s.stub ++ ".json"

/-- The `Database` dataclass: three dicts. -/
structure Database where
  sessions : List (String × Session)
  speakers : List (String × Speaker)
  speaker_categories : List (String × List SpeakerCategory)
  deriving DecidableEq, Repr

/-- `Database.delete_session`: if the stub is present, set `deleted = True` on
the existing wrapper (in place) and return `True`; else return `False`. -/
def Database.delete_session (db : Database) (stub : String) : Database × Bool :=
  match alGet db.sessions stub with
  | some existing =>
      ({ db with sessions := alSet db.sessions stub { existing with deleted := true } }, true)
  | none => (db, false)

/-- `Database.delete_speaker`: symmetric to `delete_session`. -/
def Database.delete_speaker (db : Database) (stub : String) : Database × Bool :=
  match alGet db.speakers stub with
  | some existing =>
      ({ db with speakers := alSet db.speakers stub { existing with deleted := true } }, true)
  | none => (db, false)

/-- `Database.update_session`: value-equal record → no-op returning `False`;
existing but different → replace record, set `updated = True`, return `True`;
absent → insert `Session(data)` (flag defaults) and return `True`. -/
def Database.update_session (db : Database) (data : SessionData) : Database × Bool :=
  match alGet db.sessions data.session_stub with
  | some existing =>
      if existing.data = data then (db, false)
      else
        let sessions := alSet db.sessions data.session_stub
          { existing with data := data, updated := true }
        ({ db with sessions := sessions }, true)
  | none =>
      let session : Session := { data := data }
      ({ db with sessions := alSet db.sessions session.stub session }, true)

/-- `Database.update_speaker`: same contract as `update_session`; a freshly
created wrapper receives the store's current derived category list for that
stub (empty if none). -/
def Database.update_speaker (db : Database) (data : SpeakerData) : Database × Bool :=
  match alGet db.speakers data.speaker_stub with
  | some existing =>
      if existing.data = data then (db, false)
      else
        let speakers := alSet db.speakers data.speaker_stub
          { existing with data := data, updated := true }
        ({ db with speakers := speakers }, true)
  | none =>
      let categories := (alGet db.speaker_categories data.speaker_stub).getD []
      let speaker : Speaker := { data := data, categories := categories }
      ({ db with speakers := alSet db.speakers speaker.stub speaker }, true)

/-- Decode a JSON value as a `str` field (library coercion modelled as
exact-shape matching; anything else is a validation failure). -/
def decodeStr : Value → Option String
  | .str s => some s
  | _ => none

/-- Decode a JSON value as a `list[str]` field. -/
def decodeStrItems : List Value → Option (List String)
  | [] => some []
  | v :: vs =>
      match v with
      | .str s => (decodeStrItems vs).map (fun l => s :: l)
      | _ => none

/-- Required string-like field: looked up under its `camel_case` alias
(pydantic `alias_generator = camel_case`); missing key or wrong shape is a
validation failure. -/
def reqStr (p : Payload) (name : String) : Option String :=
  (alGet p (camel_case name)).bind decodeStr

/-- Optional `list[str]` field with default `[]`: an absent alias key yields
the default, a present value must decode as a list of strings. -/
def optStrList (p : Payload) (name : String) : Option (List String) :=
  match alGet p (camel_case name) with
  | none => some []
  | some v =>
      match v with
      | .arr vs => decodeStrItems vs
      | _ => none

/-- Pydantic validation of a payload into `SessionData`
(`SessionData(**message)` and the body of `SessionData.parse_file`):
every field is read under its `camel_case` alias; `none` is ValidationError. -/
def parseSessionData (p : Payload) : Option SessionData := do
  let session_description ← reqStr p "session_description"
  let session_end_date_time ← reqStr p "session_end_date_time"
  let session_name ← reqStr p "session_name"
  let session_start_date_time ← reqStr p "session_start_date_time"
  let session_stub ← reqStr p "session_stub"
  let speaker_category ← optStrList p "speaker_category"
  let speakers ← optStrList p "speakers"
  let timezone_name ← reqStr p "timezone_name"
  let updated_date ← reqStr p "updated_date"
  pure ⟨session_description, session_end_date_time, session_name,
        session_start_date_time, session_stub, speaker_category, speakers,
        timezone_name, updated_date⟩

/-- Pydantic validation of a payload into `SpeakerData`. -/
def parseSpeakerData (p : Payload) : Option SpeakerData := do
  let presenter_at ← optStrList p "presenter_at"
  let speaker_biography ← reqStr p "speaker_biography"
  let speaker_display_name ← reqStr p "speaker_display_name"
  let speaker_first_name ← reqStr p "speaker_first_name"
  let speaker_last_name ← reqStr p "speaker_last_name"
  let speaker_stub ← reqStr p "speaker_stub"
  let speaker_title ← reqStr p "speaker_title"
  let updated_date ← reqStr p "updated_date"
  pure ⟨presenter_at, speaker_biography, speaker_display_name,
        speaker_first_name, speaker_last_name, speaker_stub, speaker_title,
        updated_date⟩

/-- `session.data.json(by_alias=True)`: fields serialized in declaration
order under their `camel_case` aliases. -/
def SessionData.jsonFields (d : SessionData) : Payload :=
  [ (camel_case "session_description", .str d.session_description),
    (camel_case "session_end_date_time", .str d.session_end_date_time),
    (camel_case "session_name", .str d.session_name),
    (camel_case "session_start_date_time", .str d.session_start_date_time),
    (camel_case "session_stub", .str d.session_stub),
    (camel_case "speaker_category", .arr (d.speaker_category.map Value.str)),
    (camel_case "speakers", .arr (d.speakers.map Value.str)),
    (camel_case "timezone_name", .str d.timezone_name),
    (camel_case "updated_date", .str d.updated_date) ]

/-- The serialized `SessionData` JSON document. -/
def SessionData.json (d : SessionData) : Value := .obj d.jsonFields

/-- `speaker.data.json(by_alias=True)`. -/
def SpeakerData.jsonFields (d : SpeakerData) : Payload :=
  [ (camel_case "presenter_at", .arr (d.presenter_at.map Value.str)),
    (camel_case "speaker_biography", .str d.speaker_biography),
    (camel_case "speaker_display_name", .str d.speaker_display_name),
    (camel_case "speaker_first_name", .str d.speaker_first_name),
    (camel_case "speaker_last_name", .str d.speaker_last_name),
    (camel_case "speaker_stub", .str d.speaker_stub),
    (camel_case "speaker_title", .str d.speaker_title),
    (camel_case "updated_date", .str d.updated_date) ]

/-- The serialized `SpeakerData` JSON document. -/
def SpeakerData.json (d : SpeakerData) : Value := .obj d.jsonFields

/-- `SessionData.parse_file`: the file's JSON document must be an object,
validated like a payload. -/
def SessionData.parse_file (v : Value) : Option SessionData :=
  match v with
  | .obj fields => parseSessionData fields
  | _ => none

/-- `SpeakerData.parse_file`. -/
def SpeakerData.parse_file (v : Value) : Option SpeakerData :=
  match v with
  | .obj fields => parseSpeakerData fields
  | _ => none

/-- The role-label classifier: the `if/elif` chain in `Database.load` that
maps a raw `category` label to a `SpeakerCategory`, with `none` for the
unknown fallback (logged, not raised). -/
def classifyCategory (category : String) : Option SpeakerCategory :=
  if category = "Organist" ∨ category = "Performer" then
    some .PERFORMER
  else if category = "New Music Composer" then
    some .COMPOSER
  else if category = "Speaker" ∨ category = "Panelist" ∨ category = "Presenter" ∨
      category = "Workshop Presenter" ∨ category = "Moderator" then
    some .PRESENTER
  else
    none

/-- Body of the per-(speaker stub, role label) loop in `Database.load`:
`self.speaker_categories.setdefault(speaker_stub, []).append(category)` when
the label classifies, and no change (a logged warning) when it does not. -/
def addCategory (sc : List (String × List SpeakerCategory))
    (speaker_stub category : String) : List (String × List SpeakerCategory) :=
  match classifyCategory category with
  | some c => alSet sc speaker_stub ((alGet sc speaker_stub).getD [] ++ [c])
  | none => sc

/-- One iteration of the session-file loop of `Database.load`: parse the file
(a validation failure propagates out of `load`), store the wrapper with
`updated=False` (a duplicate stub is logged and overwritten), then accumulate
the derived categories over `zip(speakers, speaker_category)`. -/
def loadSessionFile (db : Database) (content : Value) : Option Database :=
  match SessionData.parse_file content with
  | none => none
  | some data =>
      let session : Session := { data := data, updated := false }
      let sc := (data.speakers.zip data.speaker_category).foldl
        (fun sc p => addCategory sc p.1 p.2) db.speaker_categories
      some { db with sessions := alSet db.sessions session.stub session,
                     speaker_categories := sc }

/-- One iteration of the speaker-file loop of `Database.load`: parse, attach
the already-computed derived category list, store with `updated=False`. -/
def loadSpeakerFile (db : Database) (content : Value) : Option Database :=
  match SpeakerData.parse_file content with
  | none => none
  | some data =>
      let categories := (alGet db.speaker_categories data.speaker_stub).getD []
      let speaker : Speaker := { data := data, categories := categories, updated := false }
      some { db with speakers := alSet db.speakers speaker.stub speaker }

/-- The session-file loop of `Database.load`. -/
def loadSessions (db : Database) : List Value → Option Database
  | [] => some db
  | f :: fs =>
      match loadSessionFile db f with
      | none => none
      | some db' => loadSessions db' fs

/-- The speaker-file loop of `Database.load`. -/
def loadSpeakers (db : Database) : List Value → Option Database
  | [] => some db
  | f :: fs =>
      match loadSpeakerFile db f with
      | none => none
      | some db' => loadSpeakers db' fs

/-- `Database.load`: start from the empty store, read every file under
`sessions/`, then every file under `speakers/` (a missing directory is
tolerated: the caller passes the empty list of contents; `none` models an
uncaught `ValidationError`). -/
def Database.load (sessionFiles speakerFiles : List Value) : Option Database :=
  match loadSessions ⟨[], [], []⟩ sessionFiles with
  | none => none
  | some db => loadSpeakers db speakerFiles

/-- `Database.save`: the list of file writes performed, in order — one write
`(directory, filename, serialized record)` per wrapper whose `updated` flag
is `True`, sessions first. -/
def Database.save (db : Database) : List (String × String × Value) :=
  (db.sessions.map Prod.snd).filterMap
    (fun s => if s.updated then some ("sessions", s.filename, s.data.json) else none)
  ++ (db.speakers.map Prod.snd).filterMap
    (fun sp => if sp.updated then some ("speakers", sp.filename, sp.data.json) else none)

/-- The event envelope consumed by `handle_event`: `event["eventType"]` and
`event["message"]`, the latter a list of JSON objects. -/
structure Event where
  eventType : String
  message : List Payload

/-- The exceptions `handle_event` can raise.  `validationError` is pydantic's
ValidationError; `keyError` a missing dict key; `unrecognizedEventType` the
`ValueError` of the final `else`, carrying the tag; `emptyMessageUnpack` the
`ValueError` of unpacking `message, *others` from an empty list;
`unboundLocalChanged` the `UnboundLocalError` of `return changed` when no
branch assigned `changed`. -/
inductive HandleError where
  | validationError
  | keyError (key : String)
  | unrecognizedEventType (tag : String)
  | emptyMessageUnpack
  | unboundLocalChanged
  deriving DecidableEq, Repr

/-- The admission-item literal compared against `message["admissionItem"]`
(the source file carries mojibake: U+00E2 U+20AC U+201C where an en dash was
meant). -/
def circleAdmissionItem : String :=
  "Convention Registration â€“ SF Select Circle"

/-- `handle_event` from event.py.  The result of a normal return is the
store after mutation, the list of messages handed to
`notify_about_circle_registration` (dispatched notifications), and the
returned `changed` flag.  The dispatch chain is modelled branch for branch;
`changed : Option Bool` tracks whether the Python local was assigned, and a
`none` at `return changed` is `UnboundLocalError`.  In the `SessionDeleted`/
`SpeakerDeleted` branches a non-string stub value can never equal a string
dict key, so `.get` misses and the delete returns `False`. -/
def handle_event (event : Event) (db : Database) :
    Except HandleError (Database × List Payload × Bool) :=
  match event.message with
  | [] => .error .emptyMessageUnpack
  | message :: _others =>
    let event_type := event.eventType
    let step : Except HandleError (Database × List Payload × Option Bool) :=
      if event_type = "SessionCreated" then
        match parseSessionData message with
        | none => .error .validationError
        | some session =>
            let r := db.update_session session
            .ok (r.1, [], some r.2)
      else if event_type = "SessionUpdated" then
        match parseSessionData message with
        | none => .error .validationError
        | some session =>
            let r := db.update_session session
            .ok (r.1, [], some r.2)
      else if event_type = "SessionDeleted" then
        match alGet message "sessionStub" with
        | none => .error (.keyError "sessionStub")
        | some (.str session_stub) =>
            let r := db.delete_session session_stub
            .ok (r.1, [], some r.2)
        | some _ => .ok (db, [], some false)
      else if event_type = "SpeakerCreated" then
        match parseSpeakerData message with
        | none => .error .validationError
        | some speaker =>
            let r := db.update_speaker speaker
            .ok (r.1, [], some r.2)
      else if event_type = "SpeakerUpdated" then
        match parseSpeakerData message with
        | none => .error .validationError
        | some speaker =>
            let r := db.update_speaker speaker
            .ok (r.1, [], some r.2)
      else if event_type = "SpeakerDeleted" then
        match alGet message "speakerStub" with
        | none => .error (.keyError "speakerStub")
        | some (.str speaker_stub) =>
            let r := db.delete_speaker speaker_stub
            .ok (r.1, [], some r.2)
        | some _ => .ok (db, [], some false)
      else if event_type = "InviteeOrGuestAccepted" then
        match alGet message "admissionItem" with
        | none => .error (.keyError "admissionItem")
        | some (.str item) =>
            if item = circleAdmissionItem then .ok (db, [message], none)
            else .ok (db, [], none)
        | some _ => .ok (db, [], none)
      else
        .error (.unrecognizedEventType event_type)
    match step with
    | .error e => .error e
    | .ok (db', notices, some changed) => .ok (db', notices, changed)
    | .ok (_, _, none) => .error .unboundLocalChanged

/-- A concrete session record used to exercise the theorems. -/
def sampleSessionData : SessionData :=
  { session_description := "An opening recital"
    session_end_date_time := "2024-07-01T10:00:00"
    session_name := "Opening Recital"
    session_start_date_time := "2024-07-01T09:00:00"
    session_stub := "s1"
    speaker_category := ["Organist"]
    speakers := ["sp1"]
    timezone_name := "America/Los_Angeles"
    updated_date := "2024-06-01" }

/-- The same session with a changed name. -/
def sampleSessionData2 : SessionData :=
  { sampleSessionData with session_name := "Closing Recital" }

/-- A concrete speaker record used to exercise the theorems. -/
def sampleSpeakerData : SpeakerData :=
  { presenter_at := ["s1"]
    speaker_biography := "A biography"
    speaker_display_name := "Jane Doe"
    speaker_first_name := "Jane"
    speaker_last_name := "Doe"
    speaker_stub := "sp1"
    speaker_title := "Organist"
    updated_date := "2024-06-01" }

/-- A store holding one session and one speaker, both clean
(`updated=False`), as a fresh load would produce. -/
def sampleDb : Database :=
  { sessions := [("s1", { data := sampleSessionData, updated := false })]
    speakers := [("sp1", { data := sampleSpeakerData, categories := [.PERFORMER], updated := false })]
    speaker_categories := [("sp1", [.PERFORMER])] }

/-- A store operation: one call to the mutating `Database` interface
(`update_session` / `update_speaker` / `delete_session` / `delete_speaker`),
used to reason about arbitrary operation sequences on one store instance. -/
inductive StoreOp where
  | upsertSession (data : SessionData)
  | upsertSpeaker (data : SpeakerData)
  | delSession (stub : String)
  | delSpeaker (stub : String)
  deriving DecidableEq, Repr

/-- Run one store operation, keeping the resulting store. -/
def applyOp (db : Database) (op : StoreOp) : Database :=
  match op with
  | .upsertSession d => (db.update_session d).1
  | .upsertSpeaker d => (db.update_speaker d).1
  | .delSession s => (db.delete_session s).1
  | .delSpeaker s => (db.delete_speaker s).1

/-- Run a sequence of store operations left to right. -/
def applyOps (db : Database) (ops : List StoreOp) : Database :=
  ops.foldl applyOp db

/-- Whether an operation is one of the two delete calls. -/
def StoreOp.isDelete : StoreOp → Bool
  | .delSession _ => true
  | .delSpeaker _ => true
  | _ => false

/-- The internal field names of `SessionData`, in declaration order. -/
def sessionFieldNames : List String :=
  ["session_description", "session_end_date_time", "session_name",
   "session_start_date_time", "session_stub", "speaker_category", "speakers",
   "timezone_name", "updated_date"]

/-- The internal field names of `SpeakerData`, in declaration order. -/
def speakerFieldNames : List String :=
  ["presenter_at", "speaker_biography", "speaker_display_name",
   "speaker_first_name", "speaker_last_name", "speaker_stub", "speaker_title",
   "updated_date"]

/-- The external-name mapping exactly as the spec words it: split the internal
name on word-boundary markers (underscores), lower-case the first segment,
capitalize each subsequent segment, concatenate.  Stated independently of
`camel_case` so the two can be compared. -/
def specExternalName (name : String) : String :=
  match (splitUnderscore name.data).map String.mk with
  | [] => ""
  | first :: rest =>
      String.mk (first.data.map Char.toLower) ++ String.join (rest.map pyCapitalize)

/-- A store like `sampleDb` but with both wrappers dirty (`updated=True`),
as after a changing upsert. -/
def sampleDbTouched : Database :=
  { sessions := [("s1", { data := sampleSessionData })]
    speakers := [("sp1", { data := sampleSpeakerData, categories := [.PERFORMER] })]
    speaker_categories := [("sp1", [.PERFORMER])] }

/-! ## Association-list lemmas and computed aliases -/

theorem alGet_alSet_self (m : List (String × α)) (k : String) (v : α) :
    alGet (alSet m k v) k = some v := by
  induction m with
  | nil => simp [alSet, alGet]
  | cons p rest ih =>
    obtain ⟨k', v'⟩ := p
    by_cases h : k' = k
    · simp [alSet, alGet, h]
    · simp [alSet, alGet, h, ih]

theorem alGet_alSet_ne (m : List (String × α)) (k k' : String) (v : α) (h : k ≠ k') :
    alGet (alSet m k v) k' = alGet m k' := by
  induction m with
  | nil => simp [alSet, alGet, h]
  | cons p rest ih =>
    obtain ⟨k₀, v₀⟩ := p
    by_cases h₀ : k₀ = k
    · simp [alSet, alGet, h₀, h]
    · simp [alSet, alGet, h₀, ih]

theorem alSet_fresh (m : List (String × α)) (k : String) (v : α)
    (h : alGet m k = none) : alSet m k v = m ++ [(k, v)] := by
  induction m with
  | nil => simp [alSet]
  | cons p rest ih =>
    obtain ⟨k₀, v₀⟩ := p
    by_cases h₀ : k₀ = k
    · simp [alGet, h₀] at h
    · simp [alGet, h₀] at h
      simp [alSet, h₀, ih h]

/-- Replacing the binding of an existing key with a value that agrees under a
projection `f` leaves the `f`-image of the mapping unchanged. -/
theorem map_alSet_congr (m : List (String × α)) (k : String) (v ex : α) (f : α → β)
    (hget : alGet m k = some ex) (hf : f v = f ex) :
    (alSet m k v).map (fun p => (p.1, f p.2)) = m.map (fun p => (p.1, f p.2)) := by
  induction m with
  | nil => simp [alGet] at hget
  | cons p rest ih =>
    obtain ⟨k₀, v₀⟩ := p
    by_cases h₀ : k₀ = k
    · simp [alGet, h₀] at hget
      simp [alSet, h₀, hf, hget]
    · simp [alGet, h₀] at hget
      simp [alSet, h₀, ih hget]

theorem decodeStrItems_map (l : List String) :
    decodeStrItems (l.map Value.str) = some l := by
  induction l with
  | nil => simp [decodeStrItems]
  | cons s rest ih => simp [decodeStrItems, ih]

theorem camelAlias_session_description :
    camel_case "session_description" = "sessionDescription" := rfl
theorem camelAlias_session_end_date_time :
    camel_case "session_end_date_time" = "sessionEndDateTime" := rfl
theorem camelAlias_session_name : camel_case "session_name" = "sessionName" := rfl
theorem camelAlias_session_start_date_time :
    camel_case "session_start_date_time" = "sessionStartDateTime" := rfl
theorem camelAlias_session_stub : camel_case "session_stub" = "sessionStub" := rfl
theorem camelAlias_speaker_category :
    camel_case "speaker_category" = "speakerCategory" := rfl
theorem camelAlias_speakers : camel_case "speakers" = "speakers" := rfl
theorem camelAlias_timezone_name : camel_case "timezone_name" = "timezoneName" := rfl
theorem camelAlias_updated_date : camel_case "updated_date" = "updatedDate" := rfl
theorem camelAlias_presenter_at : camel_case "presenter_at" = "presenterAt" := rfl
theorem camelAlias_speaker_biography :
    camel_case "speaker_biography" = "speakerBiography" := rfl
theorem camelAlias_speaker_display_name :
    camel_case "speaker_display_name" = "speakerDisplayName" := rfl
theorem camelAlias_speaker_first_name :
    camel_case "speaker_first_name" = "speakerFirstName" := rfl
theorem camelAlias_speaker_last_name :
    camel_case "speaker_last_name" = "speakerLastName" := rfl
theorem camelAlias_speaker_stub : camel_case "speaker_stub" = "speakerStub" := rfl
theorem camelAlias_speaker_title : camel_case "speaker_title" = "speakerTitle" := rfl

/-- Decoding an encoded session record recovers it field for field. -/
theorem parseSessionData_jsonFields (d : SessionData) :
    parseSessionData d.jsonFields = some d := by
  simp [parseSessionData, SessionData.jsonFields, reqStr, optStrList, decodeStr,
    alGet, camelAlias_session_description, camelAlias_session_end_date_time,
    camelAlias_session_name, camelAlias_session_start_date_time,
    camelAlias_session_stub, camelAlias_speaker_category, camelAlias_speakers,
    camelAlias_timezone_name, camelAlias_updated_date, decodeStrItems_map]

/-- Decoding an encoded speaker record recovers it field for field. -/
theorem parseSpeakerData_jsonFields (d : SpeakerData) :
    parseSpeakerData d.jsonFields = some d := by
  simp [parseSpeakerData, SpeakerData.jsonFields, reqStr, optStrList, decodeStr,
    alGet, camelAlias_presenter_at, camelAlias_speaker_biography,
    camelAlias_speaker_display_name, camelAlias_speaker_first_name,
    camelAlias_speaker_last_name, camelAlias_speaker_stub,
    camelAlias_speaker_title, camelAlias_updated_date, decodeStrItems_map]

/-! ## Claim theorems -/

/-- C2: `update_session` is a change-detecting upsert: an existing wrapper
with a value-equal record is a no-op returning `false`; an existing wrapper
with a different record has its record replaced and its `updated` flag set
(other mappings untouched), returning `true`; an absent stub gets a fresh
wrapper with `updated = true` (and `deleted = false`), returning `true`; and
upserting the identical record again after a changing upsert returns `false`
and leaves the store — in particular the `updated` flag set by the first
call — untouched. -/
theorem C2_update_session_contract (db : Database) (data : SessionData) :
    (∀ ex, alGet db.sessions data.session_stub = some ex → ex.data = data →
        db.update_session data = (db, false)) ∧
    (∀ ex, alGet db.sessions data.session_stub = some ex → ex.data ≠ data →
        (db.update_session data).2 = true ∧
        (db.update_session data).1.sessions = alSet db.sessions data.session_stub { ex with data := data, updated := true } ∧
        (db.update_session data).1.speakers = db.speakers ∧
        (db.update_session data).1.speaker_categories = db.speaker_categories) ∧
    (alGet db.sessions data.session_stub = none →
        (db.update_session data).2 = true ∧
        (db.update_session data).1.sessions = alSet db.sessions data.session_stub ⟨data, true, false⟩ ∧
        (db.update_session data).1.speakers = db.speakers ∧
        (db.update_session data).1.speaker_categories = db.speaker_categories) ∧
    (∀ db', db.update_session data = (db', true) →
        db'.update_session data = (db', false)) := by
  refine ⟨?_, ?_, ?_, ?_⟩
  · intro ex hget heq
    simp [Database.update_session, hget, heq]
  · intro ex hget hne
    simp [Database.update_session, hget, hne]
  · intro hget
    simp [Database.update_session, hget]
    rfl
  · intro db' hupd
    unfold Database.update_session at hupd
    cases hg : alGet db.sessions data.session_stub with
    | some ex =>
      rw [hg] at hupd
      by_cases he : ex.data = data
      · simp [he] at hupd
      · simp only [he, if_false] at hupd
        obtain ⟨hdb, -⟩ := Prod.mk.injEq .. ▸ hupd
        subst hdb
        simp [Database.update_session, alGet_alSet_self]
    | none =>
      rw [hg] at hupd
      obtain ⟨hdb, -⟩ := Prod.mk.injEq .. ▸ hupd
      subst hdb
      simp [Database.update_session, Session.stub, alGet_alSet_self]

/-- Witness for C2: upserting a changed record into `sampleDb` (conjunct for
an existing, differing wrapper) flips the change flag and leaves the speaker
mapping alone. -/
theorem C2_update_session_contract_witness :
    (sampleDb.update_session sampleSessionData2).2 = true ∧
    (sampleDb.update_session sampleSessionData2).1.speakers = sampleDb.speakers :=
  let h := (C2_update_session_contract sampleDb sampleSessionData2).2.1
    { data := sampleSessionData, updated := false } (by decide) (by decide)
  ⟨h.1, h.2.2.1⟩

/-- C3: `delete_session` (and symmetrically `delete_speaker`) on a present
stub returns `true` and sets the wrapper's `deleted` flag while keeping the
entity in the mapping and leaving the other mappings alone; on an absent stub
it returns `false` and the store is entirely unchanged; and deletion never
changes any wrapper's `updated` flag. -/
theorem C3_delete_contract (db : Database) (stub : String) :
    (∀ ex, alGet db.sessions stub = some ex →
        (db.delete_session stub).2 = true ∧
        alGet (db.delete_session stub).1.sessions stub = some { ex with deleted := true } ∧
        (db.delete_session stub).1.speakers = db.speakers ∧
        (db.delete_session stub).1.speaker_categories = db.speaker_categories) ∧
    (alGet db.sessions stub = none → db.delete_session stub = (db, false)) ∧
    (∀ ex, alGet db.speakers stub = some ex →
        (db.delete_speaker stub).2 = true ∧
        alGet (db.delete_speaker stub).1.speakers stub = some { ex with deleted := true } ∧
        (db.delete_speaker stub).1.sessions = db.sessions ∧
        (db.delete_speaker stub).1.speaker_categories = db.speaker_categories) ∧
    (alGet db.speakers stub = none → db.delete_speaker stub = (db, false)) ∧
    ((db.delete_session stub).1.sessions.map (fun p => (p.1, p.2.updated)) =
      db.sessions.map (fun p => (p.1, p.2.updated))) ∧
    ((db.delete_speaker stub).1.speakers.map (fun p => (p.1, p.2.updated)) =
      db.speakers.map (fun p => (p.1, p.2.updated))) := by
  refine ⟨?_, ?_, ?_, ?_, ?_, ?_⟩
  · intro ex hget
    simp [Database.delete_session, hget, alGet_alSet_self]
  · intro hget
    simp [Database.delete_session, hget]
  · intro ex hget
    simp [Database.delete_speaker, hget, alGet_alSet_self]
  · intro hget
    simp [Database.delete_speaker, hget]
  · cases hg : alGet db.sessions stub with
    | some ex =>
      simp only [Database.delete_session, hg]
      exact map_alSet_congr db.sessions stub _ ex _ hg rfl
    | none => simp [Database.delete_session, hg]
  · cases hg : alGet db.speakers stub with
    | some ex =>
      simp only [Database.delete_speaker, hg]
      exact map_alSet_congr db.speakers stub _ ex _ hg rfl
    | none => simp [Database.delete_speaker, hg]

/-- Witness for C3: deleting the present stub `"s1"` from `sampleDb` flags it
deleted and keeps it in the mapping; deleting the absent stub `"zz"` is a
no-op returning `false`. -/
theorem C3_delete_contract_witness :
    ((sampleDb.delete_session "s1").2 = true ∧
      alGet (sampleDb.delete_session "s1").1.sessions "s1" =
        some { data := sampleSessionData, updated := false, deleted := true }) ∧
    sampleDb.delete_session "zz" = (sampleDb, false) :=
  let h := (C3_delete_contract sampleDb "s1").1
    { data := sampleSessionData, updated := false } (by decide)
  let h2 := (C3_delete_contract sampleDb "zz").2.1 (by decide)
  ⟨⟨h.1, h.2.1⟩, h2⟩

/-- A single store operation keeps a tombstoned session tombstoned. -/
theorem applyOp_session_tombstone (db : Database) (op : StoreOp) (stub : String)
    (ex : Session) (hget : alGet db.sessions stub = some ex)
    (hdel : ex.deleted = true) :
    ∃ ex', alGet (applyOp db op).sessions stub = some ex' ∧ ex'.deleted = true := by
  cases op with
  | upsertSession d =>
    simp only [applyOp, Database.update_session]
    cases hg : alGet db.sessions d.session_stub with
    | some e =>
      by_cases he : e.data = d
      · exact ⟨ex, by simp [he, hget, hdel]⟩
      · simp only [he, if_false]
        by_cases hk : d.session_stub = stub
        · subst hk
          rw [hg] at hget
          cases hget
          exact ⟨_, alGet_alSet_self .., hdel⟩
        · exact ⟨ex, by rw [alGet_alSet_ne _ _ _ _ hk]; exact hget, hdel⟩
    | none =>
      by_cases hk : d.session_stub = stub
      · rw [hk] at hg
        rw [hg] at hget
        cases hget
      · exact ⟨ex, by simp only [Session.stub]; rw [alGet_alSet_ne _ _ _ _ hk]; exact hget, hdel⟩
  | upsertSpeaker d =>
    simp only [applyOp, Database.update_speaker]
    cases hg : alGet db.speakers d.speaker_stub with
    | some e =>
      by_cases he : e.data = d
      · exact ⟨ex, by simp [he, hget], hdel⟩
      · exact ⟨ex, by simp [he, hget], hdel⟩
    | none => exact ⟨ex, hget, hdel⟩
  | delSession s =>
    simp only [applyOp, Database.delete_session]
    cases hg : alGet db.sessions s with
    | some e =>
      by_cases hk : s = stub
      · subst hk
        rw [hg] at hget
        cases hget
        exact ⟨_, alGet_alSet_self .., rfl⟩
      · exact ⟨ex, by rw [alGet_alSet_ne _ _ _ _ hk]; exact hget, hdel⟩
    | none => exact ⟨ex, hget, hdel⟩
  | delSpeaker s =>
    simp only [applyOp, Database.delete_speaker]
    cases hg : alGet db.speakers s with
    | some e => exact ⟨ex, hget, hdel⟩
    | none => exact ⟨ex, hget, hdel⟩

/-- A single store operation keeps a tombstoned speaker tombstoned. -/
theorem applyOp_speaker_tombstone (db : Database) (op : StoreOp) (stub : String)
    (ex : Speaker) (hget : alGet db.speakers stub = some ex)
    (hdel : ex.deleted = true) :
    ∃ ex', alGet (applyOp db op).speakers stub = some ex' ∧ ex'.deleted = true := by
  cases op with
  | upsertSpeaker d =>
    simp only [applyOp, Database.update_speaker]
    cases hg : alGet db.speakers d.speaker_stub with
    | some e =>
      by_cases he : e.data = d
      · exact ⟨ex, by simp [he, hget, hdel]⟩
      · simp only [he, if_false]
        by_cases hk : d.speaker_stub = stub
        · subst hk
          rw [hg] at hget
          cases hget
          exact ⟨_, alGet_alSet_self .., hdel⟩
        · exact ⟨ex, by rw [alGet_alSet_ne _ _ _ _ hk]; exact hget, hdel⟩
    | none =>
      by_cases hk : d.speaker_stub = stub
      · rw [hk] at hg
        rw [hg] at hget
        cases hget
      · exact ⟨ex, by simp only [Speaker.stub]; rw [alGet_alSet_ne _ _ _ _ hk]; exact hget, hdel⟩
  | upsertSession d =>
    simp only [applyOp, Database.update_session]
    cases hg : alGet db.sessions d.session_stub with
    | some e =>
      by_cases he : e.data = d
      · exact ⟨ex, by simp [he, hget], hdel⟩
      · exact ⟨ex, by simp [he, hget], hdel⟩
    | none => exact ⟨ex, hget, hdel⟩
  | delSpeaker s =>
    simp only [applyOp, Database.delete_speaker]
    cases hg : alGet db.speakers s with
    | some e =>
      by_cases hk : s = stub
      · subst hk
        rw [hg] at hget
        cases hget
        exact ⟨_, alGet_alSet_self .., rfl⟩
      · exact ⟨ex, by rw [alGet_alSet_ne _ _ _ _ hk]; exact hget, hdel⟩
    | none => exact ⟨ex, hget, hdel⟩
  | delSession s =>
    simp only [applyOp, Database.delete_session]
    cases hg : alGet db.sessions s with
    | some e => exact ⟨ex, hget, hdel⟩
    | none => exact ⟨ex, hget, hdel⟩

/-- C10 (implicit): the `deleted` flag is permanent within one store
instance — across any sequence of upsert/delete operations a tombstoned
session or speaker stub still maps to a tombstoned wrapper; in particular an
upsert onto a tombstoned stub replaces the record data (and, when the record
differs, sets `updated`), but leaves `deleted = true`. -/
theorem C10_tombstone_permanent (db : Database) (ops : List StoreOp) :
    (∀ stub ex, alGet db.sessions stub = some ex → ex.deleted = true →
        ∃ ex', alGet (applyOps db ops).sessions stub = some ex' ∧ ex'.deleted = true) ∧
    (∀ stub ex, alGet db.speakers stub = some ex → ex.deleted = true →
        ∃ ex', alGet (applyOps db ops).speakers stub = some ex' ∧ ex'.deleted = true) ∧
    (∀ data ex, alGet db.sessions data.session_stub = some ex → ex.deleted = true →
        ∃ w, alGet (db.update_session data).1.sessions data.session_stub = some w ∧
          w.data = data ∧ w.deleted = true ∧ (ex.data ≠ data → w.updated = true)) ∧
    (∀ data ex, alGet db.speakers data.speaker_stub = some ex → ex.deleted = true →
        ∃ w, alGet (db.update_speaker data).1.speakers data.speaker_stub = some w ∧
          w.data = data ∧ w.deleted = true ∧ (ex.data ≠ data → w.updated = true)) := by
  refine ⟨?_, ?_, ?_, ?_⟩
  · induction ops generalizing db with
    | nil => exact fun stub ex h hd => ⟨ex, h, hd⟩
    | cons op rest ih =>
      intro stub ex h hd
      obtain ⟨ex', h', hd'⟩ := applyOp_session_tombstone db op stub ex h hd
      exact ih (applyOp db op) stub ex' h' hd'
  · induction ops generalizing db with
    | nil => exact fun stub ex h hd => ⟨ex, h, hd⟩
    | cons op rest ih =>
      intro stub ex h hd
      obtain ⟨ex', h', hd'⟩ := applyOp_speaker_tombstone db op stub ex h hd
      exact ih (applyOp db op) stub ex' h' hd'
  · intro data ex hget hdel
    by_cases he : ex.data = data
    · exact ⟨ex, by simp [Database.update_session, hget, he], he, hdel,
        fun h => absurd he h⟩
    · refine ⟨{ ex with data := data, updated := true }, ?_, rfl, hdel, fun _ => rfl⟩
      simp [Database.update_session, hget, he, alGet_alSet_self]
  · intro data ex hget hdel
    by_cases he : ex.data = data
    · exact ⟨ex, by simp [Database.update_speaker, hget, he], he, hdel,
        fun h => absurd he h⟩
    · refine ⟨{ ex with data := data, updated := true }, ?_, rfl, hdel, fun _ => rfl⟩
      simp [Database.update_speaker, hget, he, alGet_alSet_self]

/-- Witness for C10: in a store whose one session is tombstoned, an upsert of
changed data and a further delete leave the stub tombstoned with the new
record. -/
theorem C10_tombstone_permanent_witness :
    ∃ ex', alGet (applyOps (sampleDb.delete_session "s1").1
        [.upsertSession sampleSessionData2, .delSession "s1"]).sessions "s1" =
        some ex' ∧ ex'.deleted = true :=
  (C10_tombstone_permanent (sampleDb.delete_session "s1").1
      [.upsertSession sampleSessionData2, .delSession "s1"]).1
    "s1" { data := sampleSessionData, updated := false, deleted := true }
    (by decide) (by decide)

/-- C8: the role-label classifier used during `load` maps, by case-sensitive
exact match, `"Organist"`/`"Performer"` to PERFORMER, `"New Music Composer"`
to COMPOSER, the five presenter-type labels to PRESENTER, and every other
label to unknown (`none`); an unknown label contributes nothing to the
derived category index and the per-pair load step does not fail on it. -/
theorem C8_classifier_mapping (label : String) :
    classifyCategory "Organist" = some .PERFORMER ∧
    classifyCategory "Performer" = some .PERFORMER ∧
    classifyCategory "New Music Composer" = some .COMPOSER ∧
    classifyCategory "Speaker" = some .PRESENTER ∧
    classifyCategory "Panelist" = some .PRESENTER ∧
    classifyCategory "Presenter" = some .PRESENTER ∧
    classifyCategory "Workshop Presenter" = some .PRESENTER ∧
    classifyCategory "Moderator" = some .PRESENTER ∧
    (label ∉ ["Organist", "Performer", "New Music Composer", "Speaker",
        "Panelist", "Presenter", "Workshop Presenter", "Moderator"] →
      classifyCategory label = none ∧
      ∀ sc stub, addCategory sc stub label = sc) := by
  refine ⟨rfl, rfl, rfl, rfl, rfl, rfl, rfl, rfl, ?_⟩
  intro h
  simp only [List.mem_cons, List.not_mem_nil, or_false, not_or] at h
  obtain ⟨h1, h2, h3, h4, h5, h6, h7, h8⟩ := h
  have hc : classifyCategory label = none := by
    simp [classifyCategory, h1, h2, h3, h4, h5, h6, h7, h8]
  exact ⟨hc, fun sc stub => by simp [addCategory, hc]⟩

/-- Witness for C8: `"Unknown Role"` classifies as unknown and is omitted
from a concrete category index without failing. -/
theorem C8_classifier_mapping_witness :
    classifyCategory "Unknown Role" = none ∧
    addCategory [("sp1", [SpeakerCategory.PERFORMER])] "sp1" "Unknown Role" =
      [("sp1", [SpeakerCategory.PERFORMER])] :=
  let h := (C8_classifier_mapping "Unknown Role").2.2.2.2.2.2.2.2 (by decide)
  ⟨h.1, h.2 [("sp1", [SpeakerCategory.PERFORMER])] "sp1"⟩

/-- C9: on every internal field name of the two record schemas, `camel_case`
agrees with the spec's mechanical mapping (split on underscores, lower-case
the first segment, capitalize the rest, concatenate); the encoder emits
exactly the `camel_case` aliases of the internal names (in declaration
order), and the decoder accepts what the encoder produced, recovering the
record — the same mapping applied on both sides. -/
theorem C9_external_name_mapping :
    (∀ name ∈ sessionFieldNames ++ speakerFieldNames,
        camel_case name = specExternalName name) ∧
    (∀ d : SessionData, d.jsonFields.map Prod.fst = sessionFieldNames.map camel_case) ∧
    (∀ d : SpeakerData, d.jsonFields.map Prod.fst = speakerFieldNames.map camel_case) ∧
    (∀ d : SessionData, parseSessionData d.jsonFields = some d) ∧
    (∀ d : SpeakerData, parseSpeakerData d.jsonFields = some d) := by
  refine ⟨?_, fun d => rfl, fun d => rfl,
    parseSessionData_jsonFields, parseSpeakerData_jsonFields⟩
  intro name h
  fin_cases h <;> rfl

/-- Witness for C9: the mapping agreement at the member `"session_stub"`. -/
theorem C9_external_name_mapping_witness :
    camel_case "session_stub" = specExternalName "session_stub" :=
  C9_external_name_mapping.1 "session_stub" (by decide)

/-- C5: an event whose kind tag is none of the seven dispatched kinds makes
`handle_event` raise the final-`else` `ValueError` carrying the unrecognized
tag (an error result: the store the caller holds is untouched, and no file
writes happen since `save` is never reached).  The envelope contract requires
a non-empty message list; with an empty one the unpacking fails first. -/
theorem C5_unrecognized_event_kind (event : Event) (db : Database)
    (hne : event.message ≠ [])
    (h : event.eventType ∉ ["SessionCreated", "SessionUpdated", "SessionDeleted",
        "SpeakerCreated", "SpeakerUpdated", "SpeakerDeleted",
        "InviteeOrGuestAccepted"]) :
    handle_event event db = .error (.unrecognizedEventType event.eventType) := by
  simp only [List.mem_cons, List.not_mem_nil, or_false, not_or] at h
  obtain ⟨h1, h2, h3, h4, h5, h6, h7⟩ := h
  cases hm : event.message with
  | nil => exact absurd hm hne
  | cons m rest =>
    simp [handle_event, hm, h1, h2, h3, h4, h5, h6, h7]

/-- Witness for C5: a concrete `"SessionPublished"` event against a concrete
store fails with the tag-carrying error. -/
theorem C5_unrecognized_event_kind_witness :
    handle_event ⟨"SessionPublished", [[("sessionStub", .str "s1")]]⟩ sampleDb =
      .error (.unrecognizedEventType "SessionPublished") :=
  C5_unrecognized_event_kind ⟨"SessionPublished", [[("sessionStub", .str "s1")]]⟩
    sampleDb (by simp) (by decide)

/-- C4: for the four schema-validated event kinds, if the first message
payload fails validation, `handle_event` raises ValidationError — an error
result, produced before any store call, so the store the caller holds is
exactly as it was (the mutation in each branch happens only on a successful
parse, making the event atomic). -/
theorem C4_validation_error_atomic (event : Event) (db : Database)
    (m : Payload) (rest : List Payload) (hm : event.message = m :: rest) :
    ((event.eventType = "SessionCreated" ∨ event.eventType = "SessionUpdated") →
      parseSessionData m = none →
      handle_event event db = .error .validationError) ∧
    ((event.eventType = "SpeakerCreated" ∨ event.eventType = "SpeakerUpdated") →
      parseSpeakerData m = none →
      handle_event event db = .error .validationError) := by
  constructor
  · rintro (het | het) hp <;> simp [handle_event, hm, het, hp]
  · rintro (het | het) hp <;> simp [handle_event, hm, het, hp]

/-- Witness for C4: a `"SessionCreated"` event whose payload is missing every
required field fails with ValidationError against a concrete store. -/
theorem C4_validation_error_atomic_witness :
    handle_event ⟨"SessionCreated", [[("sessionName", .str "Opening Recital")]]⟩
      sampleDb = .error .validationError :=
  (C4_validation_error_atomic
      ⟨"SessionCreated", [[("sessionName", .str "Opening Recital")]]⟩ sampleDb
      [("sessionName", .str "Opening Recital")] [] rfl).1
    (Or.inl rfl) (by decide)

/-- C1 (code bug): in the `InviteeOrGuestAccepted` branch no path assigns the
local `changed`, so for a non-matching admission item the function performs
no store mutation and dispatches no notification — but then `return changed`
raises `UnboundLocalError` instead of returning `false` as the spec states:
the error result carries no `.ok (db, [], false)`. -/
theorem C1_invitee_nonmatching_unbound_local (event : Event) (db : Database)
    (m : Payload) (rest : List Payload) (item : String)
    (hm : event.message = m :: rest)
    (het : event.eventType = "InviteeOrGuestAccepted")
    (hitem : alGet m "admissionItem" = some (.str item))
    (hne : item ≠ circleAdmissionItem) :
    handle_event event db = .error .unboundLocalChanged := by
  simp [handle_event, hm, het, hitem, hne]

/-- Witness for C1: a concrete non-matching admission item
(`"General Admission"`) raises the unbound-local error. -/
theorem C1_invitee_nonmatching_unbound_local_witness :
    handle_event
      ⟨"InviteeOrGuestAccepted", [[("admissionItem", .str "General Admission")]]⟩
      sampleDb = .error .unboundLocalChanged :=
  C1_invitee_nonmatching_unbound_local
    ⟨"InviteeOrGuestAccepted", [[("admissionItem", .str "General Admission")]]⟩
    sampleDb [("admissionItem", .str "General Admission")] []
    "General Admission" rfl rfl rfl (by decide)

/-- In a mapping with pairwise-distinct keys, two members with equal keys are
the same binding. -/
theorem eq_of_mem_keys_nodup (m : List (String × α))
    (hnd : (m.map Prod.fst).Nodup) (p q : String × α)
    (hp : p ∈ m) (hq : q ∈ m) (h : p.1 = q.1) : p = q := by
  induction m with
  | nil => cases hp
  | cons r rest ih =>
    simp only [List.map_cons, List.nodup_cons] at hnd
    rcases List.mem_cons.1 hp with rfl | hp' <;>
      rcases List.mem_cons.1 hq with rfl | hq'
    · rfl
    · exact absurd (h ▸ List.mem_map_of_mem Prod.fst hq') hnd.1
    · exact absurd (h ▸ List.mem_map_of_mem Prod.fst hp') hnd.1
    · exact ih hnd.2 hp' hq'

/-- Appending the `.json` suffix is injective on stubs. -/
theorem json_suffix_inj (a b : String) (h : a ++ ".json" = b ++ ".json") :
    a = b := by
  have hd : a.data ++ ".json".data = b.data ++ ".json".data := by
    have := congrArg String.data h
    simpa using this
  have := List.append_cancel_right hd
  cases a; cases b
  exact congrArg String.mk this

/-- `delete_session` leaves every wrapper's key and `updated` flag unchanged
(and the other two mappings untouched). -/
theorem delete_session_frame (db : Database) (stub : String) :
    (db.delete_session stub).1.sessions.map (fun p => (p.1, p.2.updated)) =
      db.sessions.map (fun p => (p.1, p.2.updated)) ∧
    (db.delete_session stub).1.speakers = db.speakers ∧
    (db.delete_session stub).1.speaker_categories = db.speaker_categories := by
  cases hg : alGet db.sessions stub with
  | some ex =>
    simp only [Database.delete_session, hg]
    exact ⟨map_alSet_congr db.sessions stub _ ex _ hg rfl, trivial, trivial⟩
  | none => simp [Database.delete_session, hg]

/-- `delete_speaker` leaves every wrapper's key and `updated` flag unchanged
(and the other two mappings untouched). -/
theorem delete_speaker_frame (db : Database) (stub : String) :
    (db.delete_speaker stub).1.speakers.map (fun p => (p.1, p.2.updated)) =
      db.speakers.map (fun p => (p.1, p.2.updated)) ∧
    (db.delete_speaker stub).1.sessions = db.sessions ∧
    (db.delete_speaker stub).1.speaker_categories = db.speaker_categories := by
  cases hg : alGet db.speakers stub with
  | some ex =>
    simp only [Database.delete_speaker, hg]
    exact ⟨map_alSet_congr db.speakers stub _ ex _ hg rfl, trivial, trivial⟩
  | none => simp [Database.delete_speaker, hg]

/-- A flag that is false at every binding of `m₂` is false at every binding of
`m₁` when the two mappings agree key-for-key on that flag. -/
theorem flag_false_of_map_eq (f : α → Bool) (m₁ m₂ : List (String × α))
    (h : m₁.map (fun p => (p.1, f p.2)) = m₂.map (fun p => (p.1, f p.2)))
    (hall : ∀ p ∈ m₂, f p.2 = false) : ∀ p ∈ m₁, f p.2 = false := by
  intro p hp
  have hm : (p.1, f p.2) ∈ m₂.map (fun p => (p.1, f p.2)) :=
    h ▸ List.mem_map_of_mem _ hp
  obtain ⟨q, hq, he⟩ := List.mem_map.1 hm
  have : f q.2 = f p.2 := congrArg Prod.snd he
  rw [← this]
  exact hall q hq

/-- A store with no `updated` wrapper writes nothing. -/
theorem save_eq_nil_of_clean (db : Database)
    (hs : ∀ p ∈ db.sessions, p.2.updated = false)
    (hp : ∀ p ∈ db.speakers, p.2.updated = false) : db.save = [] := by
  have h1 : ∀ s ∈ db.sessions.map Prod.snd,
      (if s.updated then some (("sessions", s.filename, s.data.json) : String × String × Value) else none) = none := by
    intro s hs'
    obtain ⟨p, hp', rfl⟩ := List.mem_map.1 hs'
    simp [hs p hp']
  have h2 : ∀ s ∈ db.speakers.map Prod.snd,
      (if s.updated then some (("speakers", s.filename, s.data.json) : String × String × Value) else none) = none := by
    intro s hs'
    obtain ⟨p, hp', rfl⟩ := List.mem_map.1 hs'
    simp [hp p hp']
  simp only [Database.save, List.append_eq_nil]
  exact ⟨List.filterMap_eq_nil_iff.2 h1, List.filterMap_eq_nil_iff.2 h2⟩

/-- A property of every stored value is preserved by `alSet` with a value
that has it. -/
theorem alSet_all (P : α → Prop) (m : List (String × α)) (k : String) (v : α)
    (hall : ∀ p ∈ m, P p.2) (hv : P v) : ∀ p ∈ alSet m k v, P p.2 := by
  induction m with
  | nil => simpa [alSet] using hv
  | cons r rest ih =>
    obtain ⟨k₀, v₀⟩ := r
    by_cases h₀ : k₀ = k
    · simp only [alSet, h₀, if_true]
      intro p hp
      rcases List.mem_cons.1 hp with rfl | hp'
      · exact hv
      · exact hall p (List.mem_cons_of_mem _ hp')
    · simp only [alSet, h₀, if_false]
      intro p hp
      rcases List.mem_cons.1 hp with rfl | hp'
      · exact hall _ (List.mem_cons_self ..)
      · exact ih (fun q hq => hall q (List.mem_cons_of_mem _ hq)) p hp'

/-- The session-file loop only adds wrappers with `updated = false` and never
touches the speaker mapping. -/
theorem loadSessions_clean (files : List Value) :
    ∀ db db', loadSessions db files = some db' →
      (∀ p ∈ db.sessions, p.2.updated = false) →
      ((∀ p ∈ db'.sessions, p.2.updated = false) ∧ db'.speakers = db.speakers) := by
  induction files with
  | nil =>
    intro db db' h hall
    cases h
    exact ⟨hall, rfl⟩
  | cons f fs ih =>
    intro db db' h hall
    rw [loadSessions] at h
    cases hlf : loadSessionFile db f with
    | none => rw [hlf] at h; cases h
    | some db1 =>
      rw [hlf] at h
      unfold loadSessionFile at hlf
      cases hpf : SessionData.parse_file f with
      | none => rw [hpf] at hlf; cases hlf
      | some data =>
        rw [hpf] at hlf
        injection hlf with hdb1
        have hall' : ∀ p ∈ db1.sessions, p.2.updated = false := by
          rw [← hdb1]
          exact alSet_all (fun s => s.updated = false) db.sessions _
            ({ data := data, updated := false } : Session) hall rfl
        obtain ⟨ha, hb⟩ := ih db1 db' h hall'
        refine ⟨ha, ?_⟩
        rw [hb, ← hdb1]

/-- The speaker-file loop only adds wrappers with `updated = false` and never
touches the session mapping. -/
theorem loadSpeakers_clean (files : List Value) :
    ∀ db db', loadSpeakers db files = some db' →
      (∀ p ∈ db.speakers, p.2.updated = false) →
      ((∀ p ∈ db'.speakers, p.2.updated = false) ∧ db'.sessions = db.sessions) := by
  induction files with
  | nil =>
    intro db db' h hall
    cases h
    exact ⟨hall, rfl⟩
  | cons f fs ih =>
    intro db db' h hall
    rw [loadSpeakers] at h
    cases hlf : loadSpeakerFile db f with
    | none => rw [hlf] at h; cases h
    | some db1 =>
      rw [hlf] at h
      unfold loadSpeakerFile at hlf
      cases hpf : SpeakerData.parse_file f with
      | none => rw [hpf] at hlf; cases hlf
      | some data =>
        rw [hpf] at hlf
        injection hlf with hdb1
        have hall' : ∀ p ∈ db1.speakers, p.2.updated = false := by
          rw [← hdb1]
          exact alSet_all (fun s => s.updated = false) db.speakers _
            ({ data := data,
               categories := (alGet db.speaker_categories data.speaker_stub).getD [],
               updated := false } : Speaker) hall rfl
        obtain ⟨ha, hb⟩ := ih db1 db' h hall'
        refine ⟨ha, ?_⟩
        rw [hb, ← hdb1]

/-- Every wrapper in a freshly loaded store has `updated = false`. -/
theorem load_clean (sessionFiles speakerFiles : List Value) (db : Database)
    (h : Database.load sessionFiles speakerFiles = some db) :
    (∀ p ∈ db.sessions, p.2.updated = false) ∧
    (∀ p ∈ db.speakers, p.2.updated = false) := by
  unfold Database.load at h
  cases h1 : loadSessions ⟨[], [], []⟩ sessionFiles with
  | none => rw [h1] at h; cases h
  | some db1 =>
    rw [h1] at h
    have hs1 := loadSessions_clean sessionFiles _ db1 h1 (by intro p hp; cases hp)
    have hsp : ∀ p ∈ db1.speakers, p.2.updated = false := by
      rw [hs1.2]
      intro p hp
      cases hp
    have hp1 := loadSpeakers_clean speakerFiles db1 db h hsp
    exact ⟨hp1.2 ▸ hs1.1, hp1.1⟩

/-- A sequence of delete operations on a fully clean store (no `updated`
wrapper) leaves it fully clean: deletion never sets `updated`. -/
theorem applyOps_deletes_clean (ops : List StoreOp) :
    ∀ db, (∀ op ∈ ops, op.isDelete = true) →
      (∀ p ∈ db.sessions, p.2.updated = false) →
      (∀ p ∈ db.speakers, p.2.updated = false) →
      (∀ p ∈ (applyOps db ops).sessions, p.2.updated = false) ∧
      (∀ p ∈ (applyOps db ops).speakers, p.2.updated = false) := by
  induction ops with
  | nil => exact fun db _ hs hp => ⟨hs, hp⟩
  | cons op rest ih =>
    intro db hops hs hp
    have hop := hops op (List.mem_cons_self ..)
    have hrest := fun o ho => hops o (List.mem_cons_of_mem _ ho)
    have step : (∀ p ∈ (applyOp db op).sessions, p.2.updated = false) ∧
        (∀ p ∈ (applyOp db op).speakers, p.2.updated = false) := by
      cases op with
      | upsertSession d => cases hop
      | upsertSpeaker d => cases hop
      | delSession stub =>
        obtain ⟨hm, hsp, -⟩ := delete_session_frame db stub
        exact ⟨flag_false_of_map_eq Session.updated _ _ hm hs, hsp ▸ hp⟩
      | delSpeaker stub =>
        obtain ⟨hm, hse, -⟩ := delete_speaker_frame db stub
        exact ⟨hse ▸ hs, flag_false_of_map_eq Speaker.updated _ _ hm hp⟩
    exact ih (applyOp db op) hrest step.1 step.2

/-- C6: `save` writes exactly one file per wrapper whose `updated` flag is
true — named after its stub, holding the alias-serialized record — and
writes no file of any wrapper whose `updated` flag is false, tombstoned or
not; consequently, on a store freshly built by `load`, running only deletes
and then `save` writes no record files at all. -/
theorem C6_save_frame (db : Database) :
    (∀ p ∈ db.sessions, p.2.updated = true →
        ("sessions", p.2.filename, p.2.data.json) ∈ db.save) ∧
    (∀ p ∈ db.speakers, p.2.updated = true →
        ("speakers", p.2.filename, p.2.data.json) ∈ db.save) ∧
    ((∀ q ∈ db.sessions, q.1 = q.2.stub) → (db.sessions.map Prod.fst).Nodup →
      ∀ p ∈ db.sessions, p.2.updated = false →
        ∀ c, ("sessions", p.2.filename, c) ∉ db.save) ∧
    ((∀ q ∈ db.speakers, q.1 = q.2.stub) → (db.speakers.map Prod.fst).Nodup →
      ∀ p ∈ db.speakers, p.2.updated = false →
        ∀ c, ("speakers", p.2.filename, c) ∉ db.save) ∧
    (∀ sessionFiles speakerFiles ops db₀,
      Database.load sessionFiles speakerFiles = some db₀ →
      (∀ op ∈ ops, op.isDelete = true) →
      (applyOps db₀ ops).save = []) := by
  refine ⟨?_, ?_, ?_, ?_, ?_⟩
  · intro p hp hu
    refine List.mem_append.2 (Or.inl (List.mem_filterMap.2 ⟨p.2, List.mem_map_of_mem _ hp, ?_⟩))
    simp [hu]
  · intro p hp hu
    refine List.mem_append.2 (Or.inr (List.mem_filterMap.2 ⟨p.2, List.mem_map_of_mem _ hp, ?_⟩))
    simp [hu]
  · intro hkey hnd p hp hu c hmem
    rcases List.mem_append.1 hmem with hmem | hmem
    · obtain ⟨s, hsm, hif⟩ := List.mem_filterMap.1 hmem
      by_cases hup : s.updated
      · rw [if_pos hup] at hif
        have hfn : s.filename = p.2.filename := (congrArg (fun w => w.2.1) (Option.some.inj hif))
        have hstub : s.stub = p.2.stub := json_suffix_inj _ _ hfn
        obtain ⟨q, hq, hq2⟩ := List.mem_map.1 hsm
        have : q = p := eq_of_mem_keys_nodup db.sessions hnd q p hq hp
          (by rw [hkey q hq, hkey p hp, hq2, hstub])
        rw [this] at hq2
        rw [← hq2] at hup
        rw [hu] at hup
        exact Bool.false_ne_true hup
      · rw [if_neg hup] at hif
        cases hif
    · obtain ⟨s, hsm, hif⟩ := List.mem_filterMap.1 hmem
      by_cases hup : s.updated
      · rw [if_pos hup] at hif
        have : "speakers" = "sessions" := congrArg (fun w => w.1) (Option.some.inj hif)
        exact absurd this (by decide)
      · rw [if_neg hup] at hif
        cases hif
  · intro hkey hnd p hp hu c hmem
    rcases List.mem_append.1 hmem with hmem | hmem
    · obtain ⟨s, hsm, hif⟩ := List.mem_filterMap.1 hmem
      by_cases hup : s.updated
      · rw [if_pos hup] at hif
        have : "sessions" = "speakers" := congrArg (fun w => w.1) (Option.some.inj hif)
        exact absurd this (by decide)
      · rw [if_neg hup] at hif
        cases hif
    · obtain ⟨s, hsm, hif⟩ := List.mem_filterMap.1 hmem
      by_cases hup : s.updated
      · rw [if_pos hup] at hif
        have hfn : s.filename = p.2.filename := (congrArg (fun w => w.2.1) (Option.some.inj hif))
        have hstub : s.stub = p.2.stub := json_suffix_inj _ _ hfn
        obtain ⟨q, hq, hq2⟩ := List.mem_map.1 hsm
        have : q = p := eq_of_mem_keys_nodup db.speakers hnd q p hq hp
          (by rw [hkey q hq, hkey p hp, hq2, hstub])
        rw [this] at hq2
        rw [← hq2] at hup
        rw [hu] at hup
        exact Bool.false_ne_true hup
      · rw [if_neg hup] at hif
        cases hif
  · intro sessionFiles speakerFiles ops db₀ hload hops
    obtain ⟨hs, hp⟩ := load_clean sessionFiles speakerFiles db₀ hload
    obtain ⟨hs', hp'⟩ := applyOps_deletes_clean ops db₀ hops hs hp
    exact save_eq_nil_of_clean _ hs' hp'

/-- Witness for C6: loading one session and one speaker file, deleting both
stubs, and saving writes nothing. -/
theorem C6_save_frame_witness :
    (applyOps ((Database.load [sampleSessionData.json] [sampleSpeakerData.json]).getD
        ⟨[], [], []⟩) [StoreOp.delSession "s1", StoreOp.delSpeaker "sp1"]).save = [] :=
  (C6_save_frame ⟨[], [], []⟩).2.2.2.2
    [sampleSessionData.json] [sampleSpeakerData.json]
    [StoreOp.delSession "s1", StoreOp.delSpeaker "sp1"] _ rfl (by decide)

/-- Folding a list of insertions whose keys avoid `k` leaves lookup at `k`
unchanged. -/
theorem alGet_foldl_alSet_not_mem (ks : List (String × α)) :
    ∀ (m : List (String × α)) (k : String), (∀ p ∈ ks, p.1 ≠ k) →
      alGet (ks.foldl (fun m p => alSet m p.1 p.2) m) k = alGet m k := by
  induction ks with
  | nil => intro m k _; rfl
  | cons p rest ih =>
    intro m k h
    rw [List.foldl_cons, ih (alSet m p.1 p.2) k
      (fun q hq => h q (List.mem_cons_of_mem _ hq))]
    exact alGet_alSet_ne m p.1 k p.2 (h p (List.mem_cons_self ..))

/-- Folding a list of insertions with pairwise-distinct keys makes lookup of
any inserted key return its value. -/
theorem alGet_foldl_alSet_mem (ks : List (String × α)) :
    ∀ (m : List (String × α)) (k : String) (v : α),
      (ks.map Prod.fst).Nodup → (k, v) ∈ ks →
      alGet (ks.foldl (fun m p => alSet m p.1 p.2) m) k = some v := by
  induction ks with
  | nil => intro m k v _ h; cases h
  | cons p rest ih =>
    intro m k v hnd hmem
    simp only [List.map_cons, List.nodup_cons] at hnd
    rcases List.mem_cons.1 hmem with rfl | hmem'
    · rw [List.foldl_cons]
      rw [alGet_foldl_alSet_not_mem rest (alSet m (k, v).1 (k, v).2) k
        (fun q hq h => hnd.1 (by simpa [h] using List.mem_map_of_mem Prod.fst hq))]
      exact alGet_alSet_self ..
    · rw [List.foldl_cons]
      exact ih _ k v hnd.2 hmem'

/-- The `sessions/` writes of `save`, projected to their contents, are the
encodings of the records of the updated session wrappers, in order. -/
theorem filter_session_writes (l : List Session) :
    ((l.filterMap (fun s => if s.updated then
        some (("sessions", s.filename, s.data.json) : String × String × Value) else none)).filter
      (fun w => w.1 = "sessions")).map (fun w => w.2.2) =
    (l.filterMap (fun s => if s.updated then some s.data else none)).map SessionData.json := by
  induction l with
  | nil => rfl
  | cons s rest ih =>
    by_cases h : s.updated <;> simp [h, ih]

/-- The speaker writes contribute nothing under the `sessions/` directory. -/
theorem filter_speaker_writes_sessions (l : List Speaker) :
    (l.filterMap (fun sp => if sp.updated then
        some (("speakers", sp.filename, sp.data.json) : String × String × Value) else none)).filter
      (fun w => w.1 = "sessions") = [] := by
  induction l with
  | nil => rfl
  | cons sp rest ih =>
    by_cases h : sp.updated <;> simp [h, ih]

/-- The `speakers/` writes of `save`, projected to their contents. -/
theorem filter_speaker_writes (l : List Speaker) :
    ((l.filterMap (fun sp => if sp.updated then
        some (("speakers", sp.filename, sp.data.json) : String × String × Value) else none)).filter
      (fun w => w.1 = "speakers")).map (fun w => w.2.2) =
    (l.filterMap (fun sp => if sp.updated then some sp.data else none)).map SpeakerData.json := by
  induction l with
  | nil => rfl
  | cons sp rest ih =>
    by_cases h : sp.updated <;> simp [h, ih]

/-- The session writes contribute nothing under the `speakers/` directory. -/
theorem filter_session_writes_speakers (l : List Session) :
    (l.filterMap (fun s => if s.updated then
        some (("sessions", s.filename, s.data.json) : String × String × Value) else none)).filter
      (fun w => w.1 = "speakers") = [] := by
  induction l with
  | nil => rfl
  | cons s rest ih =>
    by_cases h : s.updated <;> simp [h, ih]

/-- The file contents `save` leaves in `sessions/`. -/
theorem save_sessions_contents (db : Database) :
    ((db.save.filter (fun w => w.1 = "sessions")).map (fun w => w.2.2)) =
    ((db.sessions.map Prod.snd).filterMap
      (fun s => if s.updated then some s.data else none)).map SessionData.json := by
  simp only [Database.save, List.filter_append, List.map_append,
    filter_session_writes, filter_speaker_writes_sessions, List.map_nil,
    List.append_nil]

/-- The file contents `save` leaves in `speakers/`. -/
theorem save_speakers_contents (db : Database) :
    ((db.save.filter (fun w => w.1 = "speakers")).map (fun w => w.2.2)) =
    ((db.speakers.map Prod.snd).filterMap
      (fun sp => if sp.updated then some sp.data else none)).map SpeakerData.json := by
  simp only [Database.save, List.filter_append, List.map_append,
    filter_session_writes_speakers, filter_speaker_writes, List.map_nil,
    List.nil_append]

/-- Loading the encodings of a list of session records succeeds and inserts,
in order, one clean wrapper per record, keyed by its stub; the speaker
mapping is untouched. -/
theorem loadSessions_encodes (ds : List SessionData) :
    ∀ db : Database, ∃ db',
      loadSessions db (ds.map SessionData.json) = some db' ∧
      db'.sessions = ds.foldl
        (fun m d => alSet m d.session_stub (⟨d, false, false⟩ : Session)) db.sessions ∧
      db'.speakers = db.speakers := by
  induction ds with
  | nil => exact fun db => ⟨db, rfl, rfl, rfl⟩
  | cons d rest ih =>
    intro db
    have hlf : loadSessionFile db (SessionData.json d) =
        some { db with
          sessions := alSet db.sessions d.session_stub (⟨d, false, false⟩ : Session),
          speaker_categories := (d.speakers.zip d.speaker_category).foldl
            (fun sc p => addCategory sc p.1 p.2) db.speaker_categories } := by
      simp only [loadSessionFile, SessionData.json, SessionData.parse_file,
        parseSessionData_jsonFields]
      rfl
    obtain ⟨db', h1, h2, h3⟩ := ih { db with
      sessions := alSet db.sessions d.session_stub (⟨d, false, false⟩ : Session),
      speaker_categories := (d.speakers.zip d.speaker_category).foldl
        (fun sc p => addCategory sc p.1 p.2) db.speaker_categories }
    refine ⟨db', ?_, ?_, h3⟩
    · rw [List.map_cons, loadSessions, hlf]
      exact h1
    · rw [List.foldl_cons]
      exact h2

/-- Loading the encodings of a list of speaker records succeeds and inserts,
in order, one clean wrapper per record (carrying the store's current derived
category list for that stub); the session mapping and the category index are
untouched. -/
theorem loadSpeakers_encodes (ds : List SpeakerData) :
    ∀ db : Database, ∃ db',
      loadSpeakers db (ds.map SpeakerData.json) = some db' ∧
      db'.speakers = ds.foldl
        (fun m d => alSet m d.speaker_stub
          (⟨d, (alGet db.speaker_categories d.speaker_stub).getD [], false, false⟩ : Speaker))
        db.speakers ∧
      db'.sessions = db.sessions ∧
      db'.speaker_categories = db.speaker_categories := by
  induction ds with
  | nil => exact fun db => ⟨db, rfl, rfl, rfl, rfl⟩
  | cons d rest ih =>
    intro db
    have hlf : loadSpeakerFile db (SpeakerData.json d) =
        some { db with
          speakers := alSet db.speakers d.speaker_stub
            (⟨d, (alGet db.speaker_categories d.speaker_stub).getD [], false, false⟩ : Speaker) } := by
      simp only [loadSpeakerFile, SpeakerData.json, SpeakerData.parse_file,
        parseSpeakerData_jsonFields]
      rfl
    obtain ⟨db', h1, h2, h3, h4⟩ := ih { db with
      speakers := alSet db.speakers d.speaker_stub
        (⟨d, (alGet db.speaker_categories d.speaker_stub).getD [], false, false⟩ : Speaker) }
    refine ⟨db', ?_, ?_, h3, h4⟩
    · rw [List.map_cons, loadSpeakers, hlf]
      exact h1
    · rw [List.foldl_cons]
      exact h2

/-- Every stub of an updated session record is a key of the store. -/
theorem updated_session_stub_mem (m : List (String × Session))
    (hkey : ∀ q ∈ m, q.1 = q.2.stub) (x : String)
    (hx : x ∈ ((m.map Prod.snd).filterMap
      (fun s => if s.updated then some s.data else none)).map SessionData.session_stub) :
    x ∈ m.map Prod.fst := by
  obtain ⟨d, hd, rfl⟩ := List.mem_map.1 hx
  obtain ⟨s, hsm, hif⟩ := List.mem_filterMap.1 hd
  obtain ⟨q, hq, rfl⟩ := List.mem_map.1 hsm
  by_cases hup : q.2.updated
  · rw [if_pos hup] at hif
    cases hif
    rw [show (q.2.data.session_stub : String) = q.2.stub from rfl, ← hkey q hq]
    exact List.mem_map_of_mem Prod.fst hq
  · rw [if_neg hup] at hif
    cases hif

/-- Every stub of an updated speaker record is a key of the store. -/
theorem updated_speaker_stub_mem (m : List (String × Speaker))
    (hkey : ∀ q ∈ m, q.1 = q.2.stub) (x : String)
    (hx : x ∈ ((m.map Prod.snd).filterMap
      (fun sp => if sp.updated then some sp.data else none)).map SpeakerData.speaker_stub) :
    x ∈ m.map Prod.fst := by
  obtain ⟨d, hd, rfl⟩ := List.mem_map.1 hx
  obtain ⟨s, hsm, hif⟩ := List.mem_filterMap.1 hd
  obtain ⟨q, hq, rfl⟩ := List.mem_map.1 hsm
  by_cases hup : q.2.updated
  · rw [if_pos hup] at hif
    cases hif
    rw [show (q.2.data.speaker_stub : String) = q.2.stub from rfl, ← hkey q hq]
    exact List.mem_map_of_mem Prod.fst hq
  · rw [if_neg hup] at hif
    cases hif

/-- With pairwise-distinct keys equal to the stubs, the stubs of the updated
session records are pairwise distinct. -/
theorem updated_session_stub_nodup (m : List (String × Session))
    (hkey : ∀ q ∈ m, q.1 = q.2.stub) (hnd : (m.map Prod.fst).Nodup) :
    (((m.map Prod.snd).filterMap
      (fun s => if s.updated then some s.data else none)).map
        SessionData.session_stub).Nodup := by
  induction m with
  | nil => exact List.nodup_nil
  | cons q rest ih =>
    simp only [List.map_cons, List.nodup_cons] at hnd
    have hkr : ∀ r ∈ rest, r.1 = r.2.stub :=
      fun r hr => hkey r (List.mem_cons_of_mem _ hr)
    have tail := ih hkr hnd.2
    by_cases hup : q.2.updated
    · simp only [List.map_cons, List.filterMap_cons, if_pos hup, List.map_cons]
      refine List.nodup_cons.2 ⟨?_, tail⟩
      intro hx
      exact hnd.1 (hkey q (List.mem_cons_self ..) ▸
        updated_session_stub_mem rest hkr _ hx)
    · simpa only [List.map_cons, List.filterMap_cons, if_neg hup] using tail

/-- With pairwise-distinct keys equal to the stubs, the stubs of the updated
speaker records are pairwise distinct. -/
theorem updated_speaker_stub_nodup (m : List (String × Speaker))
    (hkey : ∀ q ∈ m, q.1 = q.2.stub) (hnd : (m.map Prod.fst).Nodup) :
    (((m.map Prod.snd).filterMap
      (fun sp => if sp.updated then some sp.data else none)).map
        SpeakerData.speaker_stub).Nodup := by
  induction m with
  | nil => exact List.nodup_nil
  | cons q rest ih =>
    simp only [List.map_cons, List.nodup_cons] at hnd
    have hkr : ∀ r ∈ rest, r.1 = r.2.stub :=
      fun r hr => hkey r (List.mem_cons_of_mem _ hr)
    have tail := ih hkr hnd.2
    by_cases hup : q.2.updated
    · simp only [List.map_cons, List.filterMap_cons, if_pos hup, List.map_cons]
      refine List.nodup_cons.2 ⟨?_, tail⟩
      intro hx
      exact hnd.1 (hkey q (List.mem_cons_self ..) ▸
        updated_speaker_stub_mem rest hkr _ hx)
    · simpa only [List.map_cons, List.filterMap_cons, if_neg hup] using tail

/-- The session-insertion fold leaves lookup of an untouched stub alone. -/
theorem alGet_session_fold_ne (ds : List SessionData) :
    ∀ (m : List (String × Session)) (k : String),
      (∀ d ∈ ds, d.session_stub ≠ k) →
      alGet (ds.foldl
        (fun m d => alSet m d.session_stub (⟨d, false, false⟩ : Session)) m) k =
      alGet m k := by
  induction ds with
  | nil => intro m k _; rfl
  | cons d rest ih =>
    intro m k h
    rw [List.foldl_cons, ih _ k (fun d' hd' => h d' (List.mem_cons_of_mem _ hd'))]
    exact alGet_alSet_ne m d.session_stub k _ (h d (List.mem_cons_self ..))

/-- With pairwise-distinct stubs, the session-insertion fold maps each
record's stub to its clean wrapper. -/
theorem alGet_session_fold_mem (ds : List SessionData) :
    ∀ (m : List (String × Session)) (d : SessionData),
      (ds.map SessionData.session_stub).Nodup → d ∈ ds →
      alGet (ds.foldl
        (fun m d => alSet m d.session_stub (⟨d, false, false⟩ : Session)) m)
        d.session_stub = some ⟨d, false, false⟩ := by
  induction ds with
  | nil => intro m d _ h; cases h
  | cons d₀ rest ih =>
    intro m d hnd hmem
    simp only [List.map_cons, List.nodup_cons] at hnd
    rcases List.mem_cons.1 hmem with rfl | hmem'
    · rw [List.foldl_cons, alGet_session_fold_ne rest _ d.session_stub
        (fun d' hd' h => hnd.1 (h ▸ List.mem_map_of_mem SessionData.session_stub hd'))]
      exact alGet_alSet_self ..
    · rw [List.foldl_cons]
      exact ih _ d hnd.2 hmem'

/-- The speaker-insertion fold (with a fixed category index `sc`) leaves
lookup of an untouched stub alone. -/
theorem alGet_speaker_fold_ne (sc : List (String × List SpeakerCategory))
    (ds : List SpeakerData) :
    ∀ (m : List (String × Speaker)) (k : String),
      (∀ d ∈ ds, d.speaker_stub ≠ k) →
      alGet (ds.foldl
        (fun m d => alSet m d.speaker_stub
          (⟨d, (alGet sc d.speaker_stub).getD [], false, false⟩ : Speaker)) m) k =
      alGet m k := by
  induction ds with
  | nil => intro m k _; rfl
  | cons d rest ih =>
    intro m k h
    rw [List.foldl_cons, ih _ k (fun d' hd' => h d' (List.mem_cons_of_mem _ hd'))]
    exact alGet_alSet_ne m d.speaker_stub k _ (h d (List.mem_cons_self ..))

/-- With pairwise-distinct stubs, the speaker-insertion fold maps each
record's stub to its clean wrapper. -/
theorem alGet_speaker_fold_mem (sc : List (String × List SpeakerCategory))
    (ds : List SpeakerData) :
    ∀ (m : List (String × Speaker)) (d : SpeakerData),
      (ds.map SpeakerData.speaker_stub).Nodup → d ∈ ds →
      alGet (ds.foldl
        (fun m d => alSet m d.speaker_stub
          (⟨d, (alGet sc d.speaker_stub).getD [], false, false⟩ : Speaker)) m)
        d.speaker_stub = some ⟨d, (alGet sc d.speaker_stub).getD [], false, false⟩ := by
  induction ds with
  | nil => intro m d _ h; cases h
  | cons d₀ rest ih =>
    intro m d hnd hmem
    simp only [List.map_cons, List.nodup_cons] at hnd
    rcases List.mem_cons.1 hmem with rfl | hmem'
    · rw [List.foldl_cons, alGet_speaker_fold_ne sc rest _ d.speaker_stub
        (fun d' hd' h => hnd.1 (h ▸ List.mem_map_of_mem SpeakerData.speaker_stub hd'))]
      exact alGet_alSet_self ..
    · rw [List.foldl_cons]
      exact ih _ d hnd.2 hmem'

/-- C7: saving a well-keyed store and loading the written files back
reproduces every record whose wrapper had `updated = true`, field for field
(list orderings included — record equality is full structural equality), and
every wrapper the load produces has `updated = false`. -/
theorem C7_save_load_roundtrip (db : Database)
    (hks : ∀ p ∈ db.sessions, p.1 = p.2.stub)
    (hns : (db.sessions.map Prod.fst).Nodup)
    (hkp : ∀ p ∈ db.speakers, p.1 = p.2.stub)
    (hnp : (db.speakers.map Prod.fst).Nodup) :
    ∃ db', Database.load
        ((db.save.filter (fun w => w.1 = "sessions")).map (fun w => w.2.2))
        ((db.save.filter (fun w => w.1 = "speakers")).map (fun w => w.2.2)) = some db' ∧
      (∀ p ∈ db.sessions, p.2.updated = true →
        alGet db'.sessions p.1 = some ⟨p.2.data, false, false⟩) ∧
      (∀ p ∈ db.speakers, p.2.updated = true →
        ∃ w, alGet db'.speakers p.1 = some w ∧ w.data = p.2.data ∧
          w.updated = false) ∧
      (∀ p ∈ db'.sessions, p.2.updated = false) ∧
      (∀ p ∈ db'.speakers, p.2.updated = false) := by
  obtain ⟨db1, hl1, hs1, hsp1⟩ := loadSessions_encodes
    ((db.sessions.map Prod.snd).filterMap
      (fun s => if s.updated then some s.data else none)) ⟨[], [], []⟩
  obtain ⟨db', hl2, hsp2, hs2, hc2⟩ := loadSpeakers_encodes
    ((db.speakers.map Prod.snd).filterMap
      (fun sp => if sp.updated then some sp.data else none)) db1
  have hload : Database.load
      ((db.save.filter (fun w => w.1 = "sessions")).map (fun w => w.2.2))
      ((db.save.filter (fun w => w.1 = "speakers")).map (fun w => w.2.2)) = some db' := by
    rw [save_sessions_contents, save_speakers_contents]
    unfold Database.load
    rw [hl1]
    exact hl2
  have hclean := load_clean _ _ db' hload
  refine ⟨db', hload, ?_, ?_, hclean.1, hclean.2⟩
  · intro p hp hu
    have hd : p.2.data ∈ (db.sessions.map Prod.snd).filterMap
        (fun s => if s.updated then some s.data else none) :=
      List.mem_filterMap.2 ⟨p.2, List.mem_map_of_mem _ hp, by simp [hu]⟩
    have hkey : p.1 = p.2.data.session_stub := hks p hp
    rw [hs2, hs1, hkey]
    exact alGet_session_fold_mem _ _ p.2.data
      (updated_session_stub_nodup db.sessions hks hns) hd
  · intro p hp hu
    have hd : p.2.data ∈ (db.speakers.map Prod.snd).filterMap
        (fun sp => if sp.updated then some sp.data else none) :=
      List.mem_filterMap.2 ⟨p.2, List.mem_map_of_mem _ hp, by simp [hu]⟩
    have hkey : p.1 = p.2.data.speaker_stub := hkp p hp
    refine ⟨⟨p.2.data, (alGet db1.speaker_categories p.2.data.speaker_stub).getD [],
      false, false⟩, ?_, rfl, rfl⟩
    rw [hsp2, hkey]
    exact alGet_speaker_fold_mem db1.speaker_categories _ _ p.2.data
      (updated_speaker_stub_nodup db.speakers hkp hnp) hd

/-- Witness for C7: the round trip at a concrete one-session, one-speaker
dirty store reproduces the session record, clean. -/
theorem C7_save_load_roundtrip_witness :
    ∃ db', Database.load
        ((sampleDbTouched.save.filter (fun w => w.1 = "sessions")).map (fun w => w.2.2))
        ((sampleDbTouched.save.filter (fun w => w.1 = "speakers")).map (fun w => w.2.2)) =
        some db' ∧
      alGet db'.sessions "s1" = some ⟨sampleSessionData, false, false⟩ := by
  obtain ⟨db', hload, hsess, -, -, -⟩ := C7_save_load_roundtrip sampleDbTouched
    (by decide) (by decide) (by decide) (by decide)
  exact ⟨db', hload, hsess ("s1", { data := sampleSessionData }) (by decide) rfl⟩
